import Mathlib

/-!
Verification of the core game-state logic of the Go/Ebiten Snake game
(`cmd/main.go`).  The game state, `reset`, `placeFood`, the
direction-input handling and the per-frame `Update` tick are embedded as
pure Lean functions.  Randomness (`rand.Intn` pairs drawn by `placeFood`)
is modelled as an explicit list of candidate cells: `placeFood` scans the
draws in order and returns the first one not occupied by the snake, or
`none` when the list is exhausted (in the Go code the loop would keep
drawing).  An empty snake makes the Go code panic at `g.snake[0]`; the
embedded `tick` returns `none` there.
-/

set_option autoImplicit false

namespace Snake

/-- Configuration constants from `cmd/main.go`. -/
def gridW : Int := 40

/-- Grid height in tiles. -/
def gridH : Int := 30

/-- Frames per movement (lower = faster). -/
def baseTickSpeed : Nat := 8

/-- Speed up every N food eaten. -/
def speedUpEvery : Nat := 5

/-- How much to reduce tickSpeed. -/
def speedDelta : Nat := 1

/-- A position on the grid (Go: `Point` struct with int X, Y). -/
structure Point where
  x : Int
  y : Int
deriving DecidableEq, Repr

/-- Vector addition, as in `Point{head.X + g.dir.X, head.Y + g.dir.Y}`. -/
def Point.add (a b : Point) : Point := ⟨a.x + b.x, a.y + b.y⟩

/-- The exact reverse of a direction delta. -/
def Point.neg (a : Point) : Point := ⟨-a.x, -a.y⟩

/-- The full logical game state (Go: `Game`; the `ebiten.Image` tile
fields of the Go struct are rendering-only and omitted). -/
structure Game where
  snake : List Point
  dir : Point
  nextDir : Point
  food : Point
  score : Nat
  tickCount : Nat
  tickSpeed : Nat
  gameOver : Bool
  started : Bool
deriving Repr

/-- Food placement over an explicit list of random draws: the Go loop draws
`(rand.Intn(gridW), rand.Intn(gridH))` and retries while the cell is
occupied by the snake; here the successive draws are given as a list and
the first unoccupied one is returned. -/
def placeFood (draws : List Point) (snake : List Point) : Option Point :=
  match draws with
  | [] => none
  | p :: rest => if p ∈ snake then placeFood rest snake else some p

/-- Restart of the game to the initial state, consuming `draws` for
the food placement.  Mirrors `(g *Game) reset()`: 3-cell snake centered at
`(gridW/2, gridH/2)` extending leftward, moving right, score 0, base tick
speed, not game over. -/
def reset (draws : List Point) : Option Game :=
  let cx : Int := gridW / 2
  let cy : Int := gridH / 2
  let snake0 : List Point := [⟨cx, cy⟩, ⟨cx - 1, cy⟩, ⟨cx - 2, cy⟩]
  (placeFood draws snake0).map (fun f =>
    { snake := snake0, dir := ⟨1, 0⟩, nextDir := ⟨1, 0⟩, food := f,
      score := 0, tickCount := 0, tickSpeed := baseTickSpeed,
      gameOver := false, started := true })

/-- A directional input intent (arrow keys / WASD in `Update`). -/
inductive Intent where
  | up
  | down
  | left
  | right
deriving DecidableEq, Repr

/-- The unit delta each intent maps to in `Update`. -/
def intentDelta : Intent → Point
  | .up => ⟨0, -1⟩
  | .down => ⟨0, 1⟩
  | .left => ⟨-1, 0⟩
  | .right => ⟨1, 0⟩

/-- The direction-input part of `Update`: each pressed key buffers its
delta into `nextDir` unless the currently moving `dir` points the opposite
way (`if g.dir.Y != 1 { g.nextDir = Point{0, -1} }` and the three
analogous guards). -/
def setDirection (g : Game) (i : Intent) : Game :=
  match i with
  | .up => if g.dir.y ≠ 1 then { g with nextDir := ⟨0, -1⟩ } else g
  | .down => if g.dir.y ≠ -1 then { g with nextDir := ⟨0, 1⟩ } else g
  | .left => if g.dir.x ≠ 1 then { g with nextDir := ⟨-1, 0⟩ } else g
  | .right => if g.dir.x ≠ -1 then { g with nextDir := ⟨1, 0⟩ } else g

/-- Wall-collision test from `Update`:
`newHead.X < 0 || newHead.X >= gridW || newHead.Y < 0 || newHead.Y >= gridH`. -/
def outOfBounds (p : Point) : Prop :=
  p.x < 0 ∨ gridW ≤ p.x ∨ p.y < 0 ∨ gridH ≤ p.y

instance (p : Point) : Decidable (outOfBounds p) := by
  unfold outOfBounds; infer_instance

/-- The movement part of `Update` (everything after the key handling):
game-over freeze, frame-counter throttle, direction commit, new head
computation, wall and self collision, growth on food with score and speed
update, otherwise tail removal.  `draws` feeds the `placeFood` call of the
food branch. -/
def tick (g : Game) (draws : List Point) : Option Game :=
  if g.gameOver then some g
  else if g.tickCount + 1 < g.tickSpeed then
    some { g with tickCount := g.tickCount + 1 }
  else
    g.snake.head?.bind fun head =>
      if outOfBounds (Point.add head g.nextDir) then
        some { g with tickCount := 0, dir := g.nextDir, gameOver := true }
      else if Point.add head g.nextDir ∈ g.snake then
        some { g with tickCount := 0, dir := g.nextDir, gameOver := true }
      else if Point.add head g.nextDir = g.food then
        (placeFood draws (Point.add head g.nextDir :: g.snake)).map (fun f =>
          { g with tickCount := 0, dir := g.nextDir,
                   snake := Point.add head g.nextDir :: g.snake,
                   score := g.score + 1,
                   tickSpeed :=
                     if (g.score + 1) % speedUpEvery = 0 ∧ 2 < g.tickSpeed
                     then g.tickSpeed - speedDelta else g.tickSpeed,
                   food := f })
      else
        some { g with tickCount := 0, dir := g.nextDir,
                      snake := (Point.add head g.nextDir :: g.snake).dropLast }

/-- The reachable game states: any successful `reset`, closed under
direction inputs and ticks (the three mutators of the state). -/
inductive Reachable : Game → Prop
  | reset (draws : List Point) (g : Game) : reset draws = some g → Reachable g
  | setDir (g : Game) (i : Intent) : Reachable g → Reachable (setDirection g i)
  | tick (g : Game) (draws : List Point) (g' : Game) :
      Reachable g → tick g draws = some g' → Reachable g'

/-- The four direction deltas that ever occur in the game. -/
def dirIsUnit (d : Point) : Prop :=
  d = ⟨1, 0⟩ ∨ d = ⟨-1, 0⟩ ∨ d = ⟨0, 1⟩ ∨ d = ⟨0, -1⟩

/-- Direction sanity invariant: both `dir` and `nextDir` are unit deltas,
and the buffered `nextDir` is never the reverse of the moving `dir`. -/
def DirOk (g : Game) : Prop :=
  dirIsUnit g.dir ∧ dirIsUnit g.nextDir ∧ g.nextDir ≠ Point.neg g.dir

/-- A concrete draw list used by the example states. -/
def drawsEx : List Point := [⟨0, 0⟩]

/-- The concrete state produced by `reset drawsEx`: the post-reset state
with the food drawn at the free cell `(0, 0)`. -/
def gInit : Game :=
  { snake := [⟨20, 15⟩, ⟨19, 15⟩, ⟨18, 15⟩], dir := ⟨1, 0⟩, nextDir := ⟨1, 0⟩,
    food := ⟨0, 0⟩, score := 0, tickCount := 0, tickSpeed := 8,
    gameOver := false, started := true }

/-- The state `gInit` with the food placed directly ahead of the head and the frame
counter one short of the throttle (the scenario of the spec: food at
`(21, 15)`, snake `[(20,15),(19,15),(18,15)]`, moving right). -/
def gFoodEx : Game := { gInit with food := ⟨21, 15⟩, tickCount := 7 }

/-- A running state about to hit the left wall: head `(0, 15)` moving
left, frame counter at the throttle boundary. -/
def gWallEx : Game :=
  { snake := [⟨0, 15⟩, ⟨1, 15⟩, ⟨2, 15⟩], dir := ⟨-1, 0⟩, nextDir := ⟨-1, 0⟩,
    food := ⟨5, 5⟩, score := 0, tickCount := 7, tickSpeed := 8,
    gameOver := false, started := true }

/-- A running state about to run into its own tail: the snake forms a
square and the head is about to enter the cell of the last segment. -/
def gSelfEx : Game :=
  { snake := [⟨5, 5⟩, ⟨4, 5⟩, ⟨4, 6⟩, ⟨5, 6⟩], dir := ⟨0, 1⟩, nextDir := ⟨0, 1⟩,
    food := ⟨9, 9⟩, score := 0, tickCount := 7, tickSpeed := 8,
    gameOver := false, started := true }

/-! Helper lemmas shared by the claim theorems. -/

theorem placeFood_not_mem {draws snake : List Point} {p : Point}
    (h : placeFood draws snake = some p) : p ∉ snake := by
  induction draws with
  | nil => simp [placeFood] at h
  | cons q rest ih =>
    rw [placeFood] at h
    split at h
    · exact ih h
    · cases h
      assumption

theorem placeFood_isSome {draws snake : List Point}
    (h : ∃ p ∈ draws, p ∉ snake) : ∃ p, placeFood draws snake = some p := by
  induction draws with
  | nil => simp at h
  | cons q rest ih =>
    rw [placeFood]
    by_cases hq : q ∈ snake
    · rw [if_pos hq]
      apply ih
      rcases h with ⟨p, hp, hps⟩
      rcases List.mem_cons.mp hp with rfl | hp
      · exact absurd hq hps
      · exact ⟨p, hp, hps⟩
    · rw [if_neg hq]
      exact ⟨q, rfl⟩

/-- Exhaustive description of the successful outcomes of `tick`: frozen
(game over), throttled, collision (wall or self), growth on food, or plain
movement. -/
theorem tick_cases {g : Game} {draws : List Point} {g' : Game}
    (h : tick g draws = some g') :
    (g.gameOver = true ∧ g' = g) ∨
    (g' = { g with tickCount := g.tickCount + 1 }) ∨
    (g' = { g with tickCount := 0, dir := g.nextDir, gameOver := true }) ∨
    (∃ head t f, g.snake = head :: t ∧
      placeFood draws (Point.add head g.nextDir :: g.snake) = some f ∧
      g' = { g with tickCount := 0, dir := g.nextDir,
                    snake := Point.add head g.nextDir :: g.snake,
                    score := g.score + 1,
                    tickSpeed :=
                      if (g.score + 1) % speedUpEvery = 0 ∧ 2 < g.tickSpeed
                      then g.tickSpeed - speedDelta else g.tickSpeed,
                    food := f }) ∨
    (∃ head t, g.snake = head :: t ∧
      g' = { g with tickCount := 0, dir := g.nextDir,
                    snake := (Point.add head g.nextDir :: g.snake).dropLast }) := by
  unfold tick at h
  split at h
  · left
    cases h
    exact ⟨by assumption, rfl⟩
  · right
    split at h
    · left
      cases h
      rfl
    · right
      cases hsn : g.snake with
      | nil =>
        rw [hsn] at h
        simp at h
      | cons head tail =>
        rw [hsn] at h
        simp only [List.head?_cons, Option.some_bind] at h
        split at h
        · left
          cases h
          rfl
        · split at h
          · left
            cases h
            rfl
          · split at h
            · right
              left
              rw [Option.map_eq_some'] at h
              rcases h with ⟨f, hf, rfl⟩
              exact ⟨head, tail, f, rfl, hf, rfl⟩
            · right
              right
              cases h
              exact ⟨head, tail, rfl, rfl⟩

/-- Reduction of `tick` at a throttle boundary of a running state with a
non-empty snake: only the collision / food / movement case split remains. -/
theorem tick_boundary {g : Game} (draws : List Point) {head : Point} {t : List Point}
    (hgo : g.gameOver = false)
    (hb : ¬ g.tickCount + 1 < g.tickSpeed)
    (hs : g.snake = head :: t) :
    tick g draws =
      (if outOfBounds (Point.add head g.nextDir) then
        some { g with tickCount := 0, dir := g.nextDir, gameOver := true }
      else if Point.add head g.nextDir ∈ g.snake then
        some { g with tickCount := 0, dir := g.nextDir, gameOver := true }
      else if Point.add head g.nextDir = g.food then
        (placeFood draws (Point.add head g.nextDir :: g.snake)).map (fun f =>
          { g with tickCount := 0, dir := g.nextDir,
                   snake := Point.add head g.nextDir :: g.snake,
                   score := g.score + 1,
                   tickSpeed :=
                     if (g.score + 1) % speedUpEvery = 0 ∧ 2 < g.tickSpeed
                     then g.tickSpeed - speedDelta else g.tickSpeed,
                   food := f })
      else
        some { g with tickCount := 0, dir := g.nextDir,
                      snake := (Point.add head g.nextDir :: g.snake).dropLast }) := by
  unfold tick
  rw [hs, hgo]
  simp only [Bool.false_eq_true, if_false, List.head?_cons, Option.some_bind, if_neg hb]

theorem dirIsUnit_ne_neg_self {d : Point} (h : dirIsUnit d) : d ≠ Point.neg d := by
  rcases h with rfl | rfl | rfl | rfl <;> decide

theorem dirIsUnit_intentDelta (i : Intent) : dirIsUnit (intentDelta i) := by
  cases i <;> unfold dirIsUnit intentDelta <;> simp

theorem dirIsUnit_right : dirIsUnit ⟨1, 0⟩ := Or.inl rfl

theorem setDirection_cases (g : Game) (i : Intent) :
    setDirection g i = g ∨
    (intentDelta i ≠ Point.neg g.dir ∧
      setDirection g i = { g with nextDir := intentDelta i }) := by
  cases i <;> simp only [setDirection, intentDelta] <;> split
  all_goals
    first
      | (left; rfl)
      | (rename_i hg
         right
         refine ⟨fun heq => hg ?_, rfl⟩
         simp only [Point.neg, Point.mk.injEq] at heq
         omega)

theorem dirOk_reset {draws : List Point} {g : Game}
    (h : reset draws = some g) : DirOk g := by
  unfold reset at h
  rw [Option.map_eq_some'] at h
  rcases h with ⟨f, _, rfl⟩
  exact ⟨dirIsUnit_right, dirIsUnit_right, dirIsUnit_ne_neg_self dirIsUnit_right⟩

theorem dirOk_setDirection (g : Game) (i : Intent) (h : DirOk g) :
    DirOk (setDirection g i) := by
  obtain ⟨hd, hn, hne⟩ := h
  unfold DirOk
  rcases setDirection_cases g i with heq | ⟨hni, heq⟩ <;> rw [heq]
  · exact ⟨hd, hn, hne⟩
  · exact ⟨hd, dirIsUnit_intentDelta i, hni⟩

theorem dirOk_tick {g : Game} {draws : List Point} {g' : Game}
    (h : tick g draws = some g') (hg : DirOk g) : DirOk g' := by
  obtain ⟨hd, hn, hne⟩ := hg
  unfold DirOk
  rcases tick_cases h with ⟨_, rfl⟩ | rfl | rfl | ⟨head, t, f, hs, hf, rfl⟩ |
      ⟨head, t, hs, rfl⟩
  · exact ⟨hd, hn, hne⟩
  · exact ⟨hd, hn, hne⟩
  · exact ⟨hn, hn, dirIsUnit_ne_neg_self hn⟩
  · exact ⟨hn, hn, dirIsUnit_ne_neg_self hn⟩
  · exact ⟨hn, hn, dirIsUnit_ne_neg_self hn⟩

theorem reachable_dirOk {g : Game} (h : Reachable g) : DirOk g := by
  induction h with
  | reset draws g hg => exact dirOk_reset hg
  | setDir g i hr ih => exact dirOk_setDirection g i ih
  | tick g draws g' hr ht ih => exact dirOk_tick ht ih

theorem setDirection_tickSpeed (g : Game) (i : Intent) :
    (setDirection g i).tickSpeed = g.tickSpeed := by
  rcases setDirection_cases g i with h | ⟨_, h⟩ <;> rw [h]

theorem tick_tickSpeed_lower {g : Game} {draws : List Point} {g' : Game}
    (h : tick g draws = some g') (hg : 2 ≤ g.tickSpeed) : 2 ≤ g'.tickSpeed := by
  rcases tick_cases h with ⟨_, rfl⟩ | rfl | rfl | ⟨head, t, f, hs, hf, rfl⟩ |
      ⟨head, t, hs, rfl⟩
  · exact hg
  · exact hg
  · exact hg
  · show 2 ≤ if (g.score + 1) % speedUpEvery = 0 ∧ 2 < g.tickSpeed
             then g.tickSpeed - speedDelta else g.tickSpeed
    split
    · simp only [speedDelta]
      omega
    · exact hg
  · exact hg

theorem reachable_minSpeed {g : Game} (h : Reachable g) : 2 ≤ g.tickSpeed := by
  induction h with
  | reset draws g hg =>
    unfold reset at hg
    rw [Option.map_eq_some'] at hg
    rcases hg with ⟨f, _, rfl⟩
    have h8 : (2 : Nat) ≤ 8 := by decide
    exact h8
  | setDir g i hr ih => rw [setDirection_tickSpeed]; exact ih
  | tick g draws g' hr ht ih => exact tick_tickSpeed_lower ht ih

/-! The claim theorems. -/

/-- C1: on a throttle-boundary tick of a running state whose new head cell
equals the food cell (and is otherwise legal), the score increases by
exactly 1, the new head is prepended, the tail is not removed, and the
snake length increases by exactly 1. -/
theorem tick_eats_food_grows (g : Game) (draws : List Point) (head : Point)
    (t : List Point) (f : Point)
    (hgo : g.gameOver = false)
    (hb : ¬ g.tickCount + 1 < g.tickSpeed)
    (hs : g.snake = head :: t)
    (hin : ¬ outOfBounds (Point.add head g.nextDir))
    (hni : Point.add head g.nextDir ∉ g.snake)
    (hfood : Point.add head g.nextDir = g.food)
    (hpf : placeFood draws (Point.add head g.nextDir :: g.snake) = some f) :
    tick g draws =
      some { g with tickCount := 0, dir := g.nextDir,
                    snake := Point.add head g.nextDir :: g.snake,
                    score := g.score + 1,
                    tickSpeed :=
                      if (g.score + 1) % speedUpEvery = 0 ∧ 2 < g.tickSpeed
                      then g.tickSpeed - speedDelta else g.tickSpeed,
                    food := f } ∧
    (Point.add head g.nextDir :: g.snake).length = g.snake.length + 1 := by
  refine ⟨?_, by simp⟩
  rw [tick_boundary draws hgo hb hs, if_neg hin, if_neg hni, if_pos hfood, hpf,
    Option.map_some']

/-- C1 witness: the spec scenario — snake `[(20,15),(19,15),(18,15)]`
moving right with food at `(21,15)`; the boundary tick yields head
`(21,15)`, score 1 and a 4-cell snake with the tail kept. -/
theorem tick_eats_food_grows_witness :
    tick gFoodEx drawsEx =
      some { snake := [⟨21, 15⟩, ⟨20, 15⟩, ⟨19, 15⟩, ⟨18, 15⟩], dir := ⟨1, 0⟩,
             nextDir := ⟨1, 0⟩, food := ⟨0, 0⟩, score := 1, tickCount := 0,
             tickSpeed := 8, gameOver := false, started := true } ∧
    ([⟨21, 15⟩, ⟨20, 15⟩, ⟨19, 15⟩, ⟨18, 15⟩] : List Point).length =
      ([⟨20, 15⟩, ⟨19, 15⟩, ⟨18, 15⟩] : List Point).length + 1 :=
  tick_eats_food_grows gFoodEx drawsEx ⟨20, 15⟩ [⟨19, 15⟩, ⟨18, 15⟩] ⟨0, 0⟩
    rfl (by decide) rfl (by decide) (by decide) rfl rfl

/-- C2: a directional intent that is the exact reverse of the currently
moving `dir` leaves `nextDir` unchanged, and in every reachable state
`nextDir` is never the reverse of `dir` (so no input sequence within one
tick can buffer a reversal). -/
theorem setDirection_no_reversal (g : Game) (i : Intent) :
    (intentDelta i = Point.neg g.dir → (setDirection g i).nextDir = g.nextDir) ∧
    (Reachable g → g.nextDir ≠ Point.neg g.dir) := by
  constructor
  · intro hrev
    cases i <;>
      (simp only [intentDelta, Point.neg, Point.mk.injEq] at hrev
       simp only [setDirection]
       rw [if_neg (not_not_intro (by omega))])
  · intro hr
    exact (reachable_dirOk hr).2.2

/-- C2 witness: with `dir = (1,0)` a Left intent leaves `nextDir` at
`(1,0)`, and the post-reset state has `nextDir` not the reverse of `dir`. -/
theorem setDirection_no_reversal_witness :
    (setDirection gInit Intent.left).nextDir = gInit.nextDir ∧
    gInit.nextDir ≠ Point.neg gInit.dir :=
  ⟨(setDirection_no_reversal gInit Intent.left).1 (by decide),
   (setDirection_no_reversal gInit Intent.left).2
     (Reachable.reset drawsEx gInit (by rfl))⟩

/-- C3: once `gameOver` is true, a `tick` returns the state completely
unchanged (hence so does every subsequent `tick` until an explicit
`reset`). -/
theorem tick_gameOver_noop (g : Game) (draws : List Point)
    (h : g.gameOver = true) : tick g draws = some g := by
  unfold tick
  rw [h]
  simp

/-- C3 witness: a concrete game-over state is returned untouched. -/
theorem tick_gameOver_noop_witness :
    tick { gInit with gameOver := true } drawsEx =
      some { gInit with gameOver := true } :=
  tick_gameOver_noop { gInit with gameOver := true } drawsEx rfl

/-- C4: on a throttle-boundary tick of a running state, a new head outside
the `[0,40) × [0,30)` grid sets `gameOver` and leaves snake, food, score
and tick speed unchanged (the snake is not extended). -/
theorem tick_wall_collision (g : Game) (draws : List Point) (head : Point)
    (t : List Point)
    (hgo : g.gameOver = false)
    (hb : ¬ g.tickCount + 1 < g.tickSpeed)
    (hs : g.snake = head :: t)
    (hout : outOfBounds (Point.add head g.nextDir)) :
    tick g draws =
      some { g with tickCount := 0, dir := g.nextDir, gameOver := true } := by
  rw [tick_boundary draws hgo hb hs, if_pos hout]

/-- C4 witness: the spec scenario — head `(0,15)` moving left computes the
out-of-bounds `(-1,15)` and only `gameOver` (plus the committed direction
and the reset frame counter) changes. -/
theorem tick_wall_collision_witness :
    tick gWallEx drawsEx =
      some { snake := [⟨0, 15⟩, ⟨1, 15⟩, ⟨2, 15⟩], dir := ⟨-1, 0⟩,
             nextDir := ⟨-1, 0⟩, food := ⟨5, 5⟩, score := 0, tickCount := 0,
             tickSpeed := 8, gameOver := true, started := true } :=
  tick_wall_collision gWallEx drawsEx ⟨0, 15⟩ [⟨1, 15⟩, ⟨2, 15⟩]
    rfl (by decide) rfl (by decide)

/-- C5: on a throttle-boundary tick of a running state, an in-bounds new
head that equals an existing snake cell sets `gameOver` and leaves snake,
food, score and tick speed unchanged. -/
theorem tick_self_collision (g : Game) (draws : List Point) (head : Point)
    (t : List Point)
    (hgo : g.gameOver = false)
    (hb : ¬ g.tickCount + 1 < g.tickSpeed)
    (hs : g.snake = head :: t)
    (hin : ¬ outOfBounds (Point.add head g.nextDir))
    (hmem : Point.add head g.nextDir ∈ g.snake) :
    tick g draws =
      some { g with tickCount := 0, dir := g.nextDir, gameOver := true } := by
  rw [tick_boundary draws hgo hb hs, if_neg hin, if_pos hmem]

/-- C5 witness: a snake curled into a square runs into its own body. -/
theorem tick_self_collision_witness :
    tick gSelfEx drawsEx =
      some { snake := [⟨5, 5⟩, ⟨4, 5⟩, ⟨4, 6⟩, ⟨5, 6⟩], dir := ⟨0, 1⟩,
             nextDir := ⟨0, 1⟩, food := ⟨9, 9⟩, score := 0, tickCount := 0,
             tickSpeed := 8, gameOver := true, started := true } :=
  tick_self_collision gSelfEx drawsEx ⟨5, 5⟩ [⟨4, 5⟩, ⟨4, 6⟩, ⟨5, 6⟩]
    rfl (by decide) rfl (by decide) (by decide)

/-- C6: `placeFood` only ever returns a cell not occupied by the snake,
and it terminates with a result whenever the draw sequence contains a free
cell (with randomness modelled as the explicit sequence of drawn cells). -/
theorem placeFood_spec (draws snake : List Point) :
    (∀ p : Point, placeFood draws snake = some p → p ∉ snake) ∧
    ((∃ p ∈ draws, p ∉ snake) → ∃ p, placeFood draws snake = some p) :=
  ⟨fun _ h => placeFood_not_mem h, placeFood_isSome⟩

/-- C6 witness: a free draw is returned and is off the snake. -/
theorem placeFood_spec_witness :
    ((⟨0, 0⟩ : Point) ∉ ([⟨20, 15⟩, ⟨19, 15⟩, ⟨18, 15⟩] : List Point)) ∧
    (∃ p, placeFood [⟨0, 0⟩] [⟨20, 15⟩, ⟨19, 15⟩, ⟨18, 15⟩] = some p) :=
  ⟨(placeFood_spec [⟨0, 0⟩] [⟨20, 15⟩, ⟨19, 15⟩, ⟨18, 15⟩]).1 ⟨0, 0⟩ rfl,
   (placeFood_spec [⟨0, 0⟩] [⟨20, 15⟩, ⟨19, 15⟩, ⟨18, 15⟩]).2
     ⟨⟨0, 0⟩, by decide, by decide⟩⟩

/-- C7: a tick never increases `tickSpeed`; from a reachable state it
never drops below 2; and it changes only by exactly `speedDelta`, only
when food was consumed (score incremented) with the new score a multiple
of `speedUpEvery` and `tickSpeed` still above 2. -/
theorem tickSpeed_monotone (g : Game) (draws : List Point) (g' : Game)
    (h : tick g draws = some g') :
    g'.tickSpeed ≤ g.tickSpeed ∧
    (Reachable g → 2 ≤ g'.tickSpeed) ∧
    (g'.tickSpeed ≠ g.tickSpeed →
      g'.tickSpeed + speedDelta = g.tickSpeed ∧ 2 < g.tickSpeed ∧
      g'.score = g.score + 1 ∧ g'.score % speedUpEvery = 0) := by
  refine ⟨?_, fun hr => tick_tickSpeed_lower h (reachable_minSpeed hr), ?_⟩
  · rcases tick_cases h with ⟨_, rfl⟩ | rfl | rfl | ⟨head, t, f, hs, hf, rfl⟩ |
        ⟨head, t, hs, rfl⟩
    · exact le_refl _
    · exact le_refl _
    · exact le_refl _
    · show (if (g.score + 1) % speedUpEvery = 0 ∧ 2 < g.tickSpeed
            then g.tickSpeed - speedDelta else g.tickSpeed) ≤ g.tickSpeed
      split
      · exact Nat.sub_le _ _
      · exact le_refl _
    · exact le_refl _
  · intro hne
    rcases tick_cases h with ⟨_, rfl⟩ | rfl | rfl | ⟨head, t, f, hs, hf, rfl⟩ |
        ⟨head, t, hs, rfl⟩
    · exact absurd rfl hne
    · exact absurd rfl hne
    · exact absurd rfl hne
    · dsimp only at hne ⊢
      by_cases hc : (g.score + 1) % speedUpEvery = 0 ∧ 2 < g.tickSpeed
      · rw [if_pos hc] at hne ⊢
        refine ⟨?_, hc.2, rfl, hc.1⟩
        have h2 := hc.2
        simp only [speedDelta]
        omega
      · rw [if_neg hc] at hne
        exact absurd rfl hne
    · exact absurd rfl hne

/-- C7 witness: a throttled tick from the reachable post-reset state keeps
`tickSpeed` at its base value, which is at least the minimum 2. -/
theorem tickSpeed_monotone_witness :
    ({ gInit with tickCount := 1 } : Game).tickSpeed ≤ gInit.tickSpeed ∧
    2 ≤ ({ gInit with tickCount := 1 } : Game).tickSpeed :=
  ⟨(tickSpeed_monotone gInit drawsEx { gInit with tickCount := 1 } rfl).1,
   (tickSpeed_monotone gInit drawsEx { gInit with tickCount := 1 } rfl).2.1
     (Reachable.reset drawsEx gInit (by rfl))⟩

/-- C8: a successful tick never shrinks the snake and grows it by at most
one cell. -/
theorem snake_length_step (g : Game) (draws : List Point) (g' : Game)
    (h : tick g draws = some g') :
    g.snake.length ≤ g'.snake.length ∧
    g'.snake.length ≤ g.snake.length + 1 := by
  rcases tick_cases h with ⟨_, rfl⟩ | rfl | rfl | ⟨head, t, f, hs, hf, rfl⟩ |
      ⟨head, t, hs, rfl⟩
  · exact ⟨le_refl _, Nat.le_succ _⟩
  · exact ⟨le_refl _, Nat.le_succ _⟩
  · exact ⟨le_refl _, Nat.le_succ _⟩
  · refine ⟨?_, ?_⟩ <;> simp only [List.length_cons] <;> omega
  · refine ⟨?_, ?_⟩ <;>
      simp only [hs, List.length_dropLast, List.length_cons] <;> omega

/-- C8 witness: a throttled tick keeps the 3-cell snake between 3 and 4
cells. -/
theorem snake_length_step_witness :
    gInit.snake.length ≤ ({ gInit with tickCount := 1 } : Game).snake.length ∧
    ({ gInit with tickCount := 1 } : Game).snake.length ≤ gInit.snake.length + 1 :=
  snake_length_step gInit drawsEx { gInit with tickCount := 1 } rfl

/-- C9: every successful `reset` yields the 3-cell snake headed at
`(gridW/2, gridH/2) = (20,15)` extending leftward, moving right with the
same buffered direction, score 0, base tick speed 8, frame counter 0, not
game over, and food off the snake. -/
theorem reset_spec (draws : List Point) (g : Game) (h : reset draws = some g) :
    g.snake = [⟨20, 15⟩, ⟨19, 15⟩, ⟨18, 15⟩] ∧
    g.dir = ⟨1, 0⟩ ∧ g.nextDir = ⟨1, 0⟩ ∧ g.score = 0 ∧
    g.tickSpeed = baseTickSpeed ∧ g.tickCount = 0 ∧ g.gameOver = false ∧
    g.food ∉ g.snake := by
  simp only [reset] at h
  rw [Option.map_eq_some'] at h
  rcases h with ⟨f, hf, rfl⟩
  refine ⟨by norm_num [gridW, gridH], rfl, rfl, rfl, rfl, rfl, rfl, ?_⟩
  exact placeFood_not_mem hf

/-- C9 witness: `reset` with the single draw `(0,0)` produces exactly the
expected initial state. -/
theorem reset_spec_witness :
    gInit.snake = [⟨20, 15⟩, ⟨19, 15⟩, ⟨18, 15⟩] ∧
    gInit.dir = ⟨1, 0⟩ ∧ gInit.nextDir = ⟨1, 0⟩ ∧ gInit.score = 0 ∧
    gInit.tickSpeed = baseTickSpeed ∧ gInit.tickCount = 0 ∧
    gInit.gameOver = false ∧ gInit.food ∉ gInit.snake :=
  reset_spec drawsEx gInit rfl

/-- C10: moving the head onto the cell of the current tail (which the tick
would otherwise vacate) still counts as self-collision — the check runs
against all current snake cells before the tail is removed — so the
boundary tick sets `gameOver` and the state is otherwise unchanged. -/
theorem tick_tail_collision (g : Game) (draws : List Point) (head : Point)
    (t : List Point)
    (hgo : g.gameOver = false)
    (hb : ¬ g.tickCount + 1 < g.tickSpeed)
    (hs : g.snake = head :: t)
    (hlast : g.snake.getLast? = some (Point.add head g.nextDir))
    (_hfood : g.food ≠ Point.add head g.nextDir) :
    tick g draws =
      some { g with tickCount := 0, dir := g.nextDir, gameOver := true } := by
  have hmem : Point.add head g.nextDir ∈ g.snake := by
    obtain ⟨hne, hx⟩ := List.mem_getLast?_eq_getLast (Option.mem_def.mpr hlast)
    rw [hx]
    exact List.getLast_mem hne
  rw [tick_boundary draws hgo hb hs]
  by_cases hout : outOfBounds (Point.add head g.nextDir)
  · rw [if_pos hout]
  · rw [if_neg hout, if_pos hmem]

/-- C10 witness: the square-shaped snake moving into the cell of its own
tail dies even though that cell would be vacated this tick. -/
theorem tick_tail_collision_witness :
    tick gSelfEx [⟨7, 7⟩] =
      some { snake := [⟨5, 5⟩, ⟨4, 5⟩, ⟨4, 6⟩, ⟨5, 6⟩], dir := ⟨0, 1⟩,
             nextDir := ⟨0, 1⟩, food := ⟨9, 9⟩, score := 0, tickCount := 0,
             tickSpeed := 8, gameOver := true, started := true } :=
  tick_tail_collision gSelfEx [⟨7, 7⟩] ⟨5, 5⟩ [⟨4, 5⟩, ⟨4, 6⟩, ⟨5, 6⟩]
    rfl (by decide) rfl (by decide) (by decide)

end Snake
